import Mathlib

/-!
Shallow embedding of the RPKI certificate core (cert.c): RFC 3779 resource
extension decoding invariants, RFC 6487 structural checks, the certificate
assembler (cert_parse_pre / cert_parse / ta_parse), the serialization layer
(cert_buffer / cert_read) and the trust / router-key indexes (auth_insert,
insert_brk, cert_insert_brks).

External collaborators that live outside the embedded source (ip.c, as.c,
x509.c, io.c helpers) are modelled from the specification where noted; all
other definitions are direct translations of the C functions.
-/

namespace RPKI

/-- Address family of an IP resource entry (AFI_IPV4 / AFI_IPV6). -/
inductive AFI where
  | ipv4
  | ipv6
deriving DecidableEq, Repr

/-- Tag of a `struct cert_ip` entry: CERT_IP_ADDR, CERT_IP_RANGE, CERT_IP_INHERIT. -/
inductive IpType where
  | addr
  | range
  | inherit
deriving DecidableEq, Repr

/-- A `struct cert_ip` entry after range composition: the address family, the
entry kind, and the composed minimum/maximum boundaries (the `min`/`max`
16-byte arrays, read as natural numbers). -/
structure CertIp where
  afi : AFI
  type : IpType
  min : Nat := 0
  max : Nat := 0
deriving DecidableEq, Repr

/-- Tag of a `struct cert_as` entry: CERT_AS_ID, CERT_AS_RANGE, CERT_AS_INHERIT. -/
inductive AsType where
  | id
  | range
  | inherit
deriving DecidableEq, Repr

/-- An AS range, `struct cert_as_range`. -/
structure AsRange where
  min : Nat := 0
  max : Nat := 0
deriving DecidableEq, Repr

/-- A `struct cert_as` entry: tag plus the union of a single id and a range. -/
structure CertAs where
  type : AsType
  id : Nat := 0
  range : AsRange := {}
deriving DecidableEq, Repr

/-- Purpose classification returned by x509_get_purpose:
CERT_PURPOSE_INVALID, CERT_PURPOSE_CA, CERT_PURPOSE_BGPSEC_ROUTER. -/
inductive CertPurpose where
  | invalid
  | ca
  | bgpsec_router
deriving DecidableEq, Repr

/-- The parsed certificate record, `struct cert`.  Pointer fields that may be
NULL are `Option String`; the opaque `X509 *x509` handle is not part of the
record (validity dates and the embedded key are passed to `ta_parse`
explicitly, as the external extractor supplies them). -/
structure Cert where
  ips : List CertIp := []
  as : List CertAs := []
  repo : Option String := none
  mft : Option String := none
  notify : Option String := none
  crl : Option String := none
  aia : Option String := none
  aki : Option String := none
  ski : Option String := none
  pubkey : Option String := none
  purpose : CertPurpose := .invalid
  talid : Nat := 0
  expires : Nat := 0
deriving DecidableEq, Repr

/-- Modelled from the spec: the maximum resource-entry count per certificate
("a maximum entry count per certificate is enforced to bound memory",
MAX_IP_SIZE in extern.h, outside the embedded source). -/
def MAX_IP_SIZE : Nat := 200000

/-- Modelled from the spec: the maximum AS-entry count per certificate
(MAX_AS_SIZE in extern.h, outside the embedded source). -/
def MAX_AS_SIZE : Nat := 200000

/-- Two composed IP ranges intersect: interval overlap of [a.min, a.max] and
[b.min, b.max]. -/
def ipRangesOverlap (a b : CertIp) : Prop :=
  a.min ≤ b.max ∧ b.min ≤ a.max

instance (a b : CertIp) : Decidable (ipRangesOverlap a b) := by
  unfold ipRangesOverlap; infer_instance

/-- Modelled from the spec: `ip_addr_check_overlap` (ip.c, outside the
embedded source).  A new entry is admissible against the current list when,
for every existing entry of the same address family, neither entry is an
`inherit` marker and the two composed ranges do not overlap ("at most one
inherit statement per address family, and no two entries for one family may
overlap"; inherit is "mutually exclusive with explicit entries"). -/
def ip_addr_check_overlap (ip : CertIp) (ips : List CertIp) : Prop :=
  ∀ e ∈ ips, e.afi = ip.afi →
    (e.type ≠ .inherit ∧ ip.type ≠ .inherit ∧ ¬ ipRangesOverlap e ip)

instance (ip : CertIp) (ips : List CertIp) :
    Decidable (ip_addr_check_overlap ip ips) := by
  unfold ip_addr_check_overlap; infer_instance

/-- The effective AS interval of an entry: a singleton id covers [id, id], a
range covers [range.min, range.max]. -/
def asRangeOf (a : CertAs) : Nat × Nat :=
  match a.type with
  | .id => (a.id, a.id)
  | .range => (a.range.min, a.range.max)
  | .inherit => (0, 0)

/-- Two AS entries cover intersecting intervals of the AS number space. -/
def asRangesOverlap (a b : CertAs) : Prop :=
  (asRangeOf a).1 ≤ (asRangeOf b).2 ∧ (asRangeOf b).1 ≤ (asRangeOf a).2

instance (a b : CertAs) : Decidable (asRangesOverlap a b) := by
  unfold asRangesOverlap; infer_instance

/-- Modelled from the spec: `as_check_overlap` (as.c, outside the embedded
source).  Same per-family overlap and single-inherit rules as for IP,
collapsed to the single AS number space: against every existing entry,
neither entry may be `inherit` and the covered intervals may not overlap. -/
def as_check_overlap (a : CertAs) (asl : List CertAs) : Prop :=
  ∀ e ∈ asl, e.type ≠ .inherit ∧ a.type ≠ .inherit ∧ ¬ asRangesOverlap e a

instance (a : CertAs) (asl : List CertAs) :
    Decidable (as_check_overlap a asl) := by
  unfold as_check_overlap; infer_instance

/-- `append_ip`: append an IP entry to the result list, failing when the
overlap / inheritance check rejects it or the size cap is reached. -/
def append_ip (ips : List CertIp) (ip : CertIp) : Option (List CertIp) :=
  if ¬ ip_addr_check_overlap ip ips then none
  else if ips.length ≥ MAX_IP_SIZE then none
  else some (ips ++ [ip])

/-- `append_as`: append an AS entry to the result list, failing when the
overlap / inheritance check rejects it or the size cap is reached. -/
def append_as (asl : List CertAs) (a : CertAs) : Option (List CertAs) :=
  if ¬ as_check_overlap a asl then none
  else if asl.length ≥ MAX_AS_SIZE then none
  else some (asl ++ [a])

/-- Pairwise compatibility of two IP entries as required of an accepted
certificate: entries of the same address family are both explicit and
non-overlapping. -/
def ipCompat (a b : CertIp) : Prop :=
  a.afi = b.afi → (a.type ≠ .inherit ∧ b.type ≠ .inherit ∧ ¬ ipRangesOverlap a b)

/-- The IP resource list invariant: all pairs compatible. -/
def ipsOk (ips : List CertIp) : Prop := List.Pairwise ipCompat ips

/-- Pairwise compatibility of two AS entries: both explicit, intervals
disjoint. -/
def asCompat (a b : CertAs) : Prop :=
  a.type ≠ .inherit ∧ b.type ≠ .inherit ∧ ¬ asRangesOverlap a b

/-- The AS resource list invariant: all pairs compatible. -/
def asOk (asl : List CertAs) : Prop := List.Pairwise asCompat asl

/-- A decoded ASN.1 element as seen by the AS-extension decoder.  DER decoding
itself is an external collaborator; an `integer` element carries the verdict
of the external `as_id_parse` conversion (`none` for a malformed or
out-of-range AS identifier). -/
inductive Asn1 where
  | integer (v : Option Nat)
  | seq
  | null
  | boolean
  | bitstr
  | octets
  | object
  | other
deriving DecidableEq, Repr

/-- `sbgp_asid`: a RFC 3779 3.2.3.10 singleton AS identifier.  The input is
the external `as_id_parse` verdict on the decoded integer; identifier zero is
reserved and rejected, anything else is appended as a CERT_AS_ID entry. -/
def sbgp_asid (asl : List CertAs) (v : Option Nat) : Option (List CertAs) :=
  match v with
  | none => none
  | some id => if id = 0 then none else append_as asl { type := .id, id := id }

/-- `sbgp_asrange`: a RFC 3779 3.2.3.8 AS range.  The input is the decoded
inner sequence (`none` when the ASN.1 sequence parse failed): it must have
exactly two elements, both integers with valid AS identifiers; a singular
range (max = min) and an out-of-order range (max < min) are rejected, the
rest is appended as a CERT_AS_RANGE entry. -/
def sbgp_asrange (asl : List CertAs) (seq : Option (List Asn1)) :
    Option (List CertAs) :=
  match seq with
  | some [Asn1.integer (some mn), Asn1.integer (some mx)] =>
    if mx = mn then none
    else if mx < mn then none
    else append_as asl { type := .range, range := ⟨mn, mx⟩ }
  | _ => none

/-- The three access-description OIDs the SIA scanner recognizes; everything
else falls under `other` and is ignored. -/
inductive SiaOid where
  | carepo
  | manifest
  | notify
  | other
deriving DecidableEq, Repr

/-- One SIA access description: its method OID and its location URI. -/
structure AccessDesc where
  method : SiaOid
  location : String
deriving DecidableEq, Repr

/-- The rsync URI scheme expected of caRepository and rpkiManifest locators. -/
def rsyncProto : String := "rsync://"

/-- The https URI scheme expected of rpkiNotify locators. -/
def httpsProto : String := "https://"

/-- The manifest file extension. -/
def mftExt : String := ".mft"

/-- String `pre` starts string `s` (the `strstr(s, pre) == s` idiom of the
source, stated over the character lists). -/
def str_begins_with (pre s : String) : Bool :=
  pre.data.isPrefixOf s.data

/-- String `s` ends in string `suf`, stated over the character lists. -/
def str_ends_with (s suf : String) : Bool :=
  suf.data.isSuffixOf s.data

/-- Modelled from the spec: `x509_location` (x509.c, outside the embedded
source) validates a locator against an expected URI scheme and yields the
URI string ("each validated against an expected URI scheme and written into
the record"). -/
def x509_location (proto : String) (loc : String) : Option String :=
  if str_begins_with proto loc then some loc else none

/-- File types distinguished by the external file-extension classifier; only
the manifest type matters here. -/
inductive Rtype where
  | mft
  | other
deriving DecidableEq, Repr

/-- Modelled from the spec: `rtype_from_file_extension` (outside the embedded
source) classifies a locator by its file extension; "the manifest locator's
file extension must identify it as a manifest file type". -/
def rtype_from_file_extension (s : String) : Rtype :=
  if str_ends_with s mftExt then .mft else .other

/-- The SIA scan loop of `sbgp_sia`: dispatch each access description on its
method OID, validating the location against the expected scheme and storing
it in the record; unrecognized OIDs are skipped. -/
def sia_scan : List AccessDesc → Cert → Option Cert
  | [], r => some r
  | ad :: rest, r =>
    match ad.method with
    | .carepo =>
      match x509_location rsyncProto ad.location with
      | none => none
      | some s => sia_scan rest { r with repo := some s }
    | .manifest =>
      match x509_location rsyncProto ad.location with
      | none => none
      | some s => sia_scan rest { r with mft := some s }
    | .notify =>
      match x509_location httpsProto ad.location with
      | none => none
      | some s => sia_scan rest { r with notify := some s }
    | .other => sia_scan rest r

/-- `sbgp_sia`: the Subject Information Access decoder.  The extension must
be non-critical and parse (`parsed = none` models a failed extension parse);
after the scan both the manifest and repository locators must be set, the
manifest URI must start with the repository URI, and the manifest URI's file
extension must classify as a manifest. -/
def sbgp_sia (critical : Bool) (parsed : Option (List AccessDesc)) (r : Cert) :
    Option Cert :=
  if critical then none
  else
    match parsed with
    | none => none
    | some ads =>
      match sia_scan ads r with
      | none => none
      | some r' =>
        match r'.mft, r'.repo with
        | some m, some rep =>
          if ¬ str_begins_with rep m then none
          else if rtype_from_file_extension m ≠ .mft then none
          else some r'
        | _, _ => none

/-- The post-extension phase of `cert_parse_pre`: bind the external field
extractions (each `Option (Option String)`: `none` is an extraction failure,
`some v` a success with the possibly-absent value `v`), classify the purpose
and apply the purpose-dependent mandatory-field rules, then require the SKI.
`r` is the parse state accumulated by the extension decoders and
`sia_present` records whether an SIA extension was seen. -/
def cert_parse_pre_finish (r : Cert) (sia_present : Bool)
    (akiE skiE aiaE crlE : Option (Option String)) (expE : Option Nat)
    (purpose : CertPurpose) (pubkeyE : Option String) : Option Cert :=
  match akiE with
  | none => none
  | some aki =>
    match skiE with
    | none => none
    | some ski =>
      match aiaE with
      | none => none
      | some aia =>
        match crlE with
        | none => none
        | some crl =>
          match expE with
          | none => none
          | some expires =>
            let r1 : Cert :=
              { r with
                aki := aki
                ski := ski
                aia := aia
                crl := crl
                expires := expires
                purpose := purpose }
            let r2 : Option Cert :=
              match purpose with
              | .ca =>
                if r1.mft = none then none
                else if r1.as.length = 0 ∧ r1.ips.length = 0 then none
                else some r1
              | .bgpsec_router =>
                match pubkeyE with
                | none => none
                | some pk =>
                  let r' : Cert := { r1 with pubkey := some pk }
                  if r'.ips.length > 0 then none
                  else if sia_present then none
                  else some r'
              | .invalid => none
            match r2 with
            | none => none
            | some r3 => if r3.ski = none then none else some r3

/-- `cert_parse`: second-stage validation of a subordinate (non-trust-anchor)
certificate: AKI present, AKI different from SKI, AIA present, CRL
distribution point present. -/
def cert_parse (p : Cert) : Option Cert :=
  match p.aki with
  | none => none
  | some a =>
    if some a = p.ski then none
    else if p.aia = none then none
    else if p.crl = none then none
    else some p

/-- `ta_parse`: trust-anchor validation.  `talKey` is the external d2i_PUBKEY
decoding of the TAL-supplied key, `certKey` the embedded public key
(X509_get0_pubkey), `notBefore`/`notAfter` the certificate validity dates and
`now` the current time; X509_cmp_current_time accepts only a strictly earlier
notBefore and strictly later notAfter. -/
def ta_parse (p : Cert) (talKey certKey : Option String)
    (notBefore notAfter : Option Int) (now : Int) : Option Cert :=
  match talKey with
  | none => none
  | some tk =>
    match certKey with
    | none => none
    | some ck =>
      if tk ≠ ck then none
      else
        match notBefore with
        | none => none
        | some nb =>
          match notAfter with
          | none => none
          | some na =>
            if ¬ nb < now then none
            else if ¬ now < na then none
            else if p.aki ≠ none ∧ p.aki ≠ p.ski then none
            else if p.aia ≠ none then none
            else if p.crl ≠ none then none
            else if p.purpose = .bgpsec_router then none
            else some p

/-- Numeric tag under which a certificate purpose travels on the wire. -/
def purposeTag : CertPurpose → Nat
  | .invalid => 0
  | .ca => 1
  | .bgpsec_router => 2

/-- Decode a wire purpose tag. -/
def purposeOfTag : Nat → Option CertPurpose
  | 0 => some .invalid
  | 1 => some .ca
  | 2 => some .bgpsec_router
  | _ => none

/-- Modelled from the spec: one transmission unit of the byte-oriented
serialization channel (io_simple_buffer / io_str_buffer, io.c, outside the
embedded source): a fixed-width scalar, a raw resource-entry array, or a
length-prefixed possibly-NULL string. -/
inductive IoItem where
  | num (n : Nat)
  | ipArr (l : List CertIp)
  | asArr (l : List CertAs)
  | str (s : Option String)
deriving DecidableEq, Repr

/-- `cert_buffer`: flatten a certificate record in the fixed field order:
expiry, purpose tag, talid, entry counts, the raw IP and AS entry arrays,
then the mft, notify, repo, crl, aia, aki, ski and pubkey strings. -/
def cert_buffer (p : Cert) : List IoItem :=
  [.num p.expires, .num (purposeTag p.purpose), .num p.talid,
   .num p.ips.length, .num p.as.length,
   .ipArr p.ips, .asArr p.as,
   .str p.mft, .str p.notify, .str p.repo, .str p.crl,
   .str p.aia, .str p.aki, .str p.ski, .str p.pubkey]

/-- `cert_read`: restore a certificate record from the channel, expecting the
exact field order written by `cert_buffer`; the array lengths must match the
transmitted counts, and the final asserts require the manifest locator
(unless the purpose is BGPsec router) and the SKI. -/
def cert_read (b : List IoItem) : Option Cert :=
  match b with
  | [.num expires, .num pt, .num talid, .num ipsz, .num asz,
     .ipArr ips, .asArr asl,
     .str mft, .str nt, .str rp, .str crl,
     .str aia, .str aki, .str ski, .str pk] =>
    match purposeOfTag pt with
    | none => none
    | some purpose =>
      if ips.length ≠ ipsz then none
      else if asl.length ≠ asz then none
      else if ¬ (mft ≠ none ∨ purpose = .bgpsec_router) then none
      else if ski = none then none
      else some { ips := ips, as := asl, repo := rp, mft := mft,
                  notify := nt, crl := crl, aia := aia, aki := aki,
                  ski := ski, pubkey := pk, purpose := purpose,
                  talid := talid, expires := expires }
  | _ => none

/-- A trust-index entry, `struct auth`: the certificate plus the link to the
parent entry (`none` for a root). -/
inductive Auth where
  | mk (parent : Option Auth) (cert : Cert)

/-- The certificate of a trust-index entry. -/
def Auth.cert : Auth → Cert
  | .mk _ c => c

/-- The parent link of a trust-index entry. -/
def Auth.parent : Auth → Option Auth
  | .mk p _ => p

/-- `auth_insert`: insert a certificate into the trust index keyed by SKI.
RB_INSERT returning an existing node with the same key makes the process die
via err(1, "auth tree corrupted"), modelled as `none`; otherwise the new
entry, linked to the supplied parent, joins the index. -/
def auth_insert (auths : List Auth) (cert : Cert) (parent : Option Auth) :
    Option (List Auth) :=
  if ∃ a ∈ auths, a.cert.ski = cert.ski then none
  else some (auths ++ [Auth.mk parent cert])

/-- A router-key entry, `struct brk`.  `ski` and `pubkey` mirror the
possibly-NULL strings of the source certificate. -/
structure Brk where
  asid : Nat
  ski : Option String
  pubkey : Option String
  expires : Nat
  talid : Nat
deriving DecidableEq, Repr

/-- The router-key index key: (AS identifier, SKI, public key), the fields
compared by `brkcmp`. -/
def brkKeyEq (a b : Brk) : Prop :=
  a.asid = b.asid ∧ a.ski = b.ski ∧ a.pubkey = b.pubkey

instance (a b : Brk) : Decidable (brkKeyEq a b) := by
  unfold brkKeyEq; infer_instance

/-- The router-key entry `insert_brk` builds from a certificate for one AS
identifier. -/
def mkBrk (cert : Cert) (asid : Nat) : Brk :=
  { asid := asid, ski := cert.ski, pubkey := cert.pubkey,
    expires := cert.expires, talid := cert.talid }

/-- `insert_brk`: RB_INSERT into the router-key index with merge-on-conflict.
If an entry with the same (AS, SKI, public key) exists, it is kept and the
new allocation discarded, except that an entry expiring sooner than the new
record takes over the new record's expiry and talid; otherwise the new entry
is inserted. -/
def insert_brk : List Brk → Brk → List Brk
  | [], b => [b]
  | e :: rest, b =>
    if brkKeyEq e b then
      (if e.expires < b.expires then
        { e with expires := b.expires, talid := b.talid }
      else e) :: rest
    else e :: insert_brk rest b

/-- `cert_insert_brks`: expand each AS entry of a validated certificate into
router-key insertions — one per singleton id, one per AS identifier of a
range (both bounds included) — while any other entry type (the inherit
marker) is skipped with a diagnostic and processing continues. -/
def cert_insert_brks (tree : List Brk) (cert : Cert) : List Brk :=
  cert.as.foldl
    (fun t a =>
      match a.type with
      | .id => insert_brk t (mkBrk cert a.id)
      | .range =>
        (List.range' a.range.min (a.range.max + 1 - a.range.min)).foldl
          (fun t asid => insert_brk t (mkBrk cert asid)) t
      | .inherit => t)
    tree

/-! Concrete sample data used by the witnesses. -/

/-- A sample AKI string. -/
def akiS : String := "ak"

/-- A sample SKI string. -/
def skiS : String := "sk"

/-- A sample AIA URI. -/
def aiaS : String := "rsync://h/p.cer"

/-- A sample CRL URI. -/
def crlS : String := "rsync://h/p.crl"

/-- A sample subordinate certificate with AKI, SKI, AIA and CRL set. -/
def certW7 : Cert :=
  { aki := some akiS, ski := some skiS, aia := some aiaS, crl := some crlS }

/-! Theorems. -/

/-- A successful `append_ip` appended exactly the new entry, and the overlap
check passed. -/
theorem append_ip_some {ips : List CertIp} {ip : CertIp} {l : List CertIp}
    (h : append_ip ips ip = some l) :
    l = ips ++ [ip] ∧ ip_addr_check_overlap ip ips := by
  unfold append_ip at h
  by_cases h1 : ip_addr_check_overlap ip ips
  · rw [if_neg (not_not_intro h1)] at h
    by_cases h2 : ips.length ≥ MAX_IP_SIZE
    · rw [if_pos h2] at h
      exact absurd h (by simp)
    · rw [if_neg h2] at h
      exact ⟨(Option.some.inj h).symm, h1⟩
  · rw [if_pos h1] at h
    exact absurd h (by simp)

/-- A successful `append_as` appended exactly the new entry, and the overlap
check passed. -/
theorem append_as_some {asl : List CertAs} {a : CertAs} {l : List CertAs}
    (h : append_as asl a = some l) :
    l = asl ++ [a] ∧ as_check_overlap a asl := by
  unfold append_as at h
  by_cases h1 : as_check_overlap a asl
  · rw [if_neg (not_not_intro h1)] at h
    by_cases h2 : asl.length ≥ MAX_AS_SIZE
    · rw [if_pos h2] at h
      exact absurd h (by simp)
    · rw [if_neg h2] at h
      exact ⟨(Option.some.inj h).symm, h1⟩
  · rw [if_pos h1] at h
    exact absurd h (by simp)

/-- C1: the resource lists of every certificate accepted by the parser carry
no two same-family overlapping entries and at most one inherit entry per
family, excluding explicit entries: the lists start empty, a successful
`append_ip` / `append_as` preserves the invariant, and appending an entry
the overlap/inheritance check rejects fails (rejecting the certificate). -/
theorem append_resource_invariants :
    ipsOk [] ∧ asOk [] ∧
    (∀ ips ip ips1, ipsOk ips → append_ip ips ip = some ips1 → ipsOk ips1) ∧
    (∀ asl a asl1, asOk asl → append_as asl a = some asl1 → asOk asl1) ∧
    (∀ ips ip, ¬ ip_addr_check_overlap ip ips → append_ip ips ip = none) ∧
    (∀ asl a, ¬ as_check_overlap a asl → append_as asl a = none) := by
  refine ⟨List.Pairwise.nil, List.Pairwise.nil, ?_, ?_, ?_, ?_⟩
  · intro ips ip ips1 hok happ
    obtain ⟨rfl, hchk⟩ := append_ip_some happ
    unfold ipsOk at *
    rw [List.pairwise_append]
    refine ⟨hok, List.pairwise_singleton _ _, ?_⟩
    intro x hx y hy
    have hyy : y = ip := by simpa using hy
    subst hyy
    intro hafi
    exact hchk x hx hafi
  · intro asl a asl1 hok happ
    obtain ⟨rfl, hchk⟩ := append_as_some happ
    unfold asOk at *
    rw [List.pairwise_append]
    refine ⟨hok, List.pairwise_singleton _ _, ?_⟩
    intro x hx y hy
    have hyy : y = a := by simpa using hy
    subst hyy
    exact hchk x hx
  · intro ips ip hn
    unfold append_ip
    rw [if_pos hn]
  · intro asl a hn
    unfold append_as
    rw [if_pos hn]

/-- Witness for C1: a concrete successful append yields an invariant-holding
list. -/
theorem append_resource_invariants_witness :
    ipsOk [⟨AFI.ipv4, IpType.addr, 0, 255⟩] ∧ asOk [⟨AsType.id, 5, {}⟩] := by
  constructor
  · exact append_resource_invariants.2.2.1 [] ⟨AFI.ipv4, IpType.addr, 0, 255⟩
      [⟨AFI.ipv4, IpType.addr, 0, 255⟩] List.Pairwise.nil (by decide)
  · exact append_resource_invariants.2.2.2.1 [] ⟨AsType.id, 5, {}⟩
      [⟨AsType.id, 5, {}⟩] List.Pairwise.nil (by decide)

/-- C5: the AS-extension decoder rejects a zero singleton, a singular range
and a reversed range, and every entry it accepts is either a nonzero
singleton or a range with min strictly below max. -/
theorem sbgp_as_entry_validity :
    (∀ asl, sbgp_asid asl (some 0) = none) ∧
    (∀ asl n, sbgp_asrange asl
      (some [Asn1.integer (some n), Asn1.integer (some n)]) = none) ∧
    (∀ asl mn mx, mx < mn → sbgp_asrange asl
      (some [Asn1.integer (some mn), Asn1.integer (some mx)]) = none) ∧
    (∀ asl v asl1, sbgp_asid asl v = some asl1 →
      ∃ n, n ≠ 0 ∧ asl1 = asl ++ [{ type := AsType.id, id := n }]) ∧
    (∀ asl sq asl1, sbgp_asrange asl sq = some asl1 →
      ∃ mn mx, mn < mx ∧
        asl1 = asl ++ [{ type := AsType.range, range := ⟨mn, mx⟩ }]) := by
  refine ⟨?_, ?_, ?_, ?_, ?_⟩
  · intro asl
    simp [sbgp_asid]
  · intro asl n
    simp [sbgp_asrange]
  · intro asl mn mx h
    simp [sbgp_asrange, Nat.ne_of_lt h, h]
  · intro asl v asl1 h
    cases v with
    | none => simp [sbgp_asid] at h
    | some n =>
      simp only [sbgp_asid] at h
      by_cases hn : n = 0
      · rw [if_pos hn] at h
        exact absurd h (by simp)
      · rw [if_neg hn] at h
        obtain ⟨rfl, _⟩ := append_as_some h
        exact ⟨n, hn, rfl⟩
  · intro asl sq asl1 h
    unfold sbgp_asrange at h
    split at h
    case _ mn mx =>
      split_ifs at h with h1 h2
      obtain ⟨rfl, _⟩ := append_as_some h
      exact ⟨mn, mx, Nat.lt_of_le_of_ne (Nat.le_of_not_lt h2) (Ne.symm h1), rfl⟩
    case _ => simp at h

/-- Witness for C5: decoding a concrete valid singleton and a concrete valid
range appends the expected entries. -/
theorem sbgp_as_entry_validity_witness :
    (∃ n, n ≠ 0 ∧ [({ type := AsType.id, id := 7 } : CertAs)] =
      [] ++ [{ type := AsType.id, id := n }]) ∧
    (∃ mn mx, mn < mx ∧
      [({ type := AsType.range, range := ⟨3, 9⟩ } : CertAs)] =
        [] ++ [{ type := AsType.range, range := ⟨mn, mx⟩ }]) := by
  constructor
  · exact sbgp_as_entry_validity.2.2.2.1 [] (some 7)
      [{ type := AsType.id, id := 7 }] (by decide)
  · exact sbgp_as_entry_validity.2.2.2.2 []
      (some [Asn1.integer (some 3), Asn1.integer (some 9)])
      [{ type := AsType.range, range := ⟨3, 9⟩ }] (by decide)

/-- Normal form of `cert_parse`: it filters on the conjunction of its four
field checks. -/
theorem cert_parse_eq (p : Cert) :
    cert_parse p =
      if p.aki ≠ none ∧ p.aki ≠ p.ski ∧ p.aia ≠ none ∧ p.crl ≠ none then
        some p
      else none := by
  unfold cert_parse
  cases p.aki with
  | none =>
    dsimp only
    rw [if_neg (fun hc => hc.1 rfl)]
  | some a =>
    dsimp only
    by_cases h1 : some a = p.ski
    · rw [if_pos h1, if_neg (fun hc => absurd h1 hc.2.1)]
    · by_cases h2 : p.aia = none
      · rw [if_neg h1, if_pos h2, if_neg (fun hc => hc.2.2.1 h2)]
      · by_cases h3 : p.crl = none
        · rw [if_neg h1, if_neg h2, if_pos h3,
            if_neg (fun hc => hc.2.2.2 h3)]
        · rw [if_neg h1, if_neg h2, if_neg h3,
            if_pos ⟨by simp, h1, h2, h3⟩]

/-- C7: `cert_parse` returns the record exactly when the AKI is present and
differs from the SKI, an AIA locator is present and a CRL distribution point
is present; in every other case it returns nothing. -/
theorem cert_parse_characterization (p : Cert) :
    (cert_parse p = some p ↔
      p.aki ≠ none ∧ p.aki ≠ p.ski ∧ p.aia ≠ none ∧ p.crl ≠ none) ∧
    (¬ (p.aki ≠ none ∧ p.aki ≠ p.ski ∧ p.aia ≠ none ∧ p.crl ≠ none) →
      cert_parse p = none) := by
  rw [cert_parse_eq]
  by_cases h : p.aki ≠ none ∧ p.aki ≠ p.ski ∧ p.aia ≠ none ∧ p.crl ≠ none
  · rw [if_pos h]
    exact ⟨⟨fun _ => h, fun _ => rfl⟩, fun hc => absurd h hc⟩
  · rw [if_neg h]
    exact ⟨⟨fun hc => by simp at hc, fun hc => absurd hc h⟩, fun _ => rfl⟩

/-- Witness for C7: a concrete subordinate certificate with all four fields
passes `cert_parse`. -/
theorem cert_parse_characterization_witness :
    cert_parse certW7 = some certW7 :=
  (cert_parse_characterization certW7).1.mpr (by decide)

/-- C9: a duplicate-SKI trust-index insertion is fatal (the insertion yields
no updated index), and an insertion with a fresh SKI always succeeds, linking
the new entry to the supplied parent. -/
theorem auth_insert_duplicate_fatal (auths : List Auth) (cert : Cert)
    (parent : Option Auth) :
    (auth_insert auths cert parent = none ↔
      ∃ a ∈ auths, a.cert.ski = cert.ski) ∧
    ((∀ a ∈ auths, a.cert.ski ≠ cert.ski) →
      auth_insert auths cert parent = some (auths ++ [Auth.mk parent cert])) := by
  unfold auth_insert
  by_cases h : ∃ a ∈ auths, a.cert.ski = cert.ski
  · rw [if_pos h]
    refine ⟨⟨fun _ => h, fun _ => rfl⟩, ?_⟩
    intro hall
    obtain ⟨a, ha, hq⟩ := h
    exact absurd hq (hall a ha)
  · rw [if_neg h]
    exact ⟨⟨fun hc => by simp at hc, fun hc => absurd hc h⟩, fun _ => rfl⟩

/-- Witness for C9: inserting a concrete certificate into the empty trust
index succeeds, with no parent link. -/
theorem auth_insert_witness :
    auth_insert [] certW7 none = some ([] ++ [Auth.mk none certW7]) :=
  (auth_insert_duplicate_fatal [] certW7 none).2 (by simp)

/-- Facts forced by a successful `cert_parse_pre_finish`: the purpose-specific
mandatory-field rules held, the purpose classification was valid, and the SKI
was extracted and present. -/
theorem cert_parse_pre_finish_some_facts (r : Cert) (sia : Bool)
    (akiE skiE aiaE crlE : Option (Option String)) (expE : Option Nat)
    (purpose : CertPurpose) (pubkeyE : Option String) (c : Cert)
    (hc : cert_parse_pre_finish r sia akiE skiE aiaE crlE expE purpose
      pubkeyE = some c) :
    (purpose = .ca → r.mft ≠ none ∧ (r.as ≠ [] ∨ r.ips ≠ [])) ∧
    (purpose = .bgpsec_router → pubkeyE ≠ none ∧ r.ips = [] ∧ sia = false) ∧
    purpose ≠ .invalid ∧ (∃ s, skiE = some (some s)) ∧ c.ski ≠ none := by
  cases akiE with
  | none => exact Option.noConfusion hc
  | some aki =>
  cases skiE with
  | none => exact Option.noConfusion hc
  | some ski =>
  cases aiaE with
  | none => exact Option.noConfusion hc
  | some aia =>
  cases crlE with
  | none => exact Option.noConfusion hc
  | some crl =>
  cases expE with
  | none => exact Option.noConfusion hc
  | some expires =>
  cases purpose with
  | invalid => exact Option.noConfusion hc
  | ca =>
    simp only [cert_parse_pre_finish] at hc
    by_cases hm : r.mft = none
    · rw [if_pos hm] at hc
      exact Option.noConfusion hc
    · rw [if_neg hm] at hc
      by_cases hres : r.as.length = 0 ∧ r.ips.length = 0
      · rw [if_pos hres] at hc
        exact Option.noConfusion hc
      · rw [if_neg hres] at hc
        dsimp only at hc
        by_cases hski : ski = none
        · rw [if_pos hski] at hc
          exact Option.noConfusion hc
        · rw [if_neg hski] at hc
          obtain ⟨s, hs⟩ := Option.ne_none_iff_exists'.mp hski
          refine ⟨fun _ => ⟨hm, ?_⟩, ?_, ?_, ⟨s, by rw [hs]⟩, ?_⟩
          · rcases not_and_or.mp hres with h | h
            · exact Or.inl (fun hnil => h (by rw [hnil]; rfl))
            · exact Or.inr (fun hnil => h (by rw [hnil]; rfl))
          · intro hp
            exact absurd hp (by decide)
          · decide
          · have hcc := Option.some.inj hc
            rw [← hcc]
            exact hski
  | bgpsec_router =>
    cases pubkeyE with
    | none => exact Option.noConfusion hc
    | some pk =>
      simp only [cert_parse_pre_finish] at hc
      by_cases hips : r.ips.length > 0
      · rw [if_pos hips] at hc
        exact Option.noConfusion hc
      · rw [if_neg hips] at hc
        cases sia with
        | true => exact Option.noConfusion hc
        | false =>
          rw [if_neg (by simp)] at hc
          dsimp only at hc
          by_cases hski : ski = none
          · rw [if_pos hski] at hc
            exact Option.noConfusion hc
          · rw [if_neg hski] at hc
            obtain ⟨s, hs⟩ := Option.ne_none_iff_exists'.mp hski
            refine ⟨?_, ?_, ?_, ⟨s, by rw [hs]⟩, ?_⟩
            · intro hp
              exact absurd hp (by decide)
            · intro _
              refine ⟨by simp, ?_, rfl⟩
              exact List.eq_nil_of_length_eq_zero (Nat.eq_zero_of_not_pos hips)
            · decide
            · have hcc := Option.some.inj hc
              rw [← hcc]
              exact hski

/-- C2: after all extensions are processed, `cert_parse_pre` enforces the
purpose-dependent rules: a CA certificate is rejected unless a manifest
locator and at least one IP or AS resource entry are present; a BGPsec-router
certificate is rejected unless a public key was extracted, and rejected when
it has IP resources or an SIA extension; any other purpose classification
fails the parse; and a certificate without an SKI is rejected. -/
theorem cert_parse_pre_purpose_rules (r : Cert) (sia : Bool)
    (akiE skiE aiaE crlE : Option (Option String)) (expE : Option Nat)
    (purpose : CertPurpose) (pubkeyE : Option String) :
    (∀ c, cert_parse_pre_finish r sia akiE skiE aiaE crlE expE purpose
        pubkeyE = some c →
      (purpose = .ca → r.mft ≠ none ∧ (r.as ≠ [] ∨ r.ips ≠ [])) ∧
      (purpose = .bgpsec_router → pubkeyE ≠ none ∧ r.ips = [] ∧ sia = false) ∧
      c.ski ≠ none) ∧
    (purpose = .invalid →
      cert_parse_pre_finish r sia akiE skiE aiaE crlE expE purpose
        pubkeyE = none) ∧
    (skiE = some none →
      cert_parse_pre_finish r sia akiE skiE aiaE crlE expE purpose
        pubkeyE = none) := by
  refine ⟨fun c hc => ?_, ?_, ?_⟩
  · have h := cert_parse_pre_finish_some_facts r sia akiE skiE aiaE crlE expE
      purpose pubkeyE c hc
    exact ⟨h.1, h.2.1, h.2.2.2.2⟩
  · intro hp
    cases hf : cert_parse_pre_finish r sia akiE skiE aiaE crlE expE purpose
        pubkeyE with
    | none => rfl
    | some c =>
      have h := cert_parse_pre_finish_some_facts r sia akiE skiE aiaE crlE
        expE purpose pubkeyE c hf
      exact absurd hp h.2.2.1
  · intro hs
    cases hf : cert_parse_pre_finish r sia akiE skiE aiaE crlE expE purpose
        pubkeyE with
    | none => rfl
    | some c =>
      have h := cert_parse_pre_finish_some_facts r sia akiE skiE aiaE crlE
        expE purpose pubkeyE c hf
      obtain ⟨s, hss⟩ := h.2.2.2.1
      rw [hs] at hss
      exact Option.noConfusion (Option.some.inj hss)

/-- A sample manifest URI located under the sample repository URI. -/
def mftS : String := "rsync://h/m.mft"

/-- A sample repository URI. -/
def repoS : String := "rsync://h/"

/-- A sample public key string. -/
def pkS : String := "pk"

/-- A sample post-extension parse state for a CA certificate: manifest
locator set, one AS resource entry. -/
def certW2 : Cert := { mft := some mftS, as := [⟨AsType.id, 5, {}⟩] }

/-- The record `cert_parse_pre_finish` produces from `certW2` with the sample
extractions. -/
def certW2c : Cert :=
  { mft := some mftS, as := [⟨AsType.id, 5, {}⟩], ski := some skiS,
    purpose := .ca }

/-- Witness for C2: the sample CA certificate is accepted, so its manifest
locator and resource lists satisfy the CA rules. -/
theorem cert_parse_pre_purpose_rules_witness :
    certW2.mft ≠ none ∧ (certW2.as ≠ [] ∨ certW2.ips ≠ []) :=
  (((cert_parse_pre_purpose_rules certW2 false (some none) (some (some skiS))
    (some none) (some none) (some 0) CertPurpose.ca none).1 certW2c
    (by decide)).1) rfl

/-- C4: `ta_parse` accepts a record only when the embedded public key equals
the TAL-supplied key, the current time lies in [notBefore, notAfter], the
AKI — when present — equals the SKI, no AIA and no CRL distribution point are
present, and the purpose is not BGPsec router; any violation yields no
record. -/
theorem ta_parse_accepts_only_valid (p : Cert) (talKey certKey : Option String)
    (notBefore notAfter : Option Int) (now : Int) (q : Cert)
    (h : ta_parse p talKey certKey notBefore notAfter now = some q) :
    (∃ k, talKey = some k ∧ certKey = some k) ∧
    (∃ nb na, notBefore = some nb ∧ notAfter = some na ∧
      nb ≤ now ∧ now ≤ na) ∧
    (∀ x, p.aki = some x → p.ski = some x) ∧
    p.aia = none ∧ p.crl = none ∧ p.purpose ≠ .bgpsec_router ∧ q = p := by
  cases talKey with
  | none => exact Option.noConfusion h
  | some tk =>
  cases certKey with
  | none => exact Option.noConfusion h
  | some ck =>
  simp only [ta_parse] at h
  by_cases hk : tk ≠ ck
  · rw [if_pos hk] at h
    exact Option.noConfusion h
  · rw [if_neg hk] at h
    cases notBefore with
    | none => exact Option.noConfusion h
    | some nb =>
    cases notAfter with
    | none => exact Option.noConfusion h
    | some na =>
    dsimp only at h
    by_cases h1 : nb < now
    · rw [if_neg (not_not_intro h1)] at h
      by_cases h2 : now < na
      · rw [if_neg (not_not_intro h2)] at h
        by_cases h3 : p.aki ≠ none ∧ p.aki ≠ p.ski
        · rw [if_pos h3] at h
          exact Option.noConfusion h
        · rw [if_neg h3] at h
          by_cases h4 : p.aia ≠ none
          · rw [if_pos h4] at h
            exact Option.noConfusion h
          · rw [if_neg h4] at h
            by_cases h5 : p.crl ≠ none
            · rw [if_pos h5] at h
              exact Option.noConfusion h
            · rw [if_neg h5] at h
              by_cases h6 : p.purpose = .bgpsec_router
              · rw [if_pos h6] at h
                exact Option.noConfusion h
              · rw [if_neg h6] at h
                have hq := Option.some.inj h
                refine ⟨⟨ck, by rw [not_not.mp hk], rfl⟩,
                  ⟨nb, na, rfl, rfl, le_of_lt h1, le_of_lt h2⟩, ?_,
                  not_not.mp h4, not_not.mp h5, h6, hq.symm⟩
                intro x hx
                rcases not_and_or.mp h3 with hh | hh
                · rw [not_not] at hh
                  rw [hx] at hh
                  exact Option.noConfusion hh
                · rw [not_not] at hh
                  rw [← hh, hx]
      · rw [if_pos h2] at h
        exact Option.noConfusion h
    · rw [if_pos h1] at h
      exact Option.noConfusion h

/-- A sample trust-anchor certificate: SKI set, no AKI, no AIA, no CRL, CA
purpose. -/
def certW4 : Cert := { ski := some skiS, purpose := CertPurpose.ca }

/-- Witness for C4: the sample trust anchor is accepted at time 5 within the
validity interval [0, 10], so it has no AIA and no CRL. -/
theorem ta_parse_witness : certW4.aia = none ∧ certW4.crl = none :=
  ⟨(ta_parse_accepts_only_valid certW4 (some pkS) (some pkS) (some 0)
      (some 10) 5 certW4 (by decide)).2.2.2.1,
   (ta_parse_accepts_only_valid certW4 (some pkS) (some pkS) (some 0)
      (some 10) 5 certW4 (by decide)).2.2.2.2.1⟩

/-- C6: the SIA decoder rejects a critical SIA extension, and any certificate
it passes has both the manifest and repository locators set, with the
manifest URI starting with the repository URI and carrying a manifest file
extension. -/
theorem sbgp_sia_checks (critical : Bool) (parsed : Option (List AccessDesc))
    (r : Cert) :
    (critical = true → sbgp_sia critical parsed r = none) ∧
    (∀ r1, sbgp_sia critical parsed r = some r1 →
      ∃ m rep, r1.mft = some m ∧ r1.repo = some rep ∧
        str_begins_with rep m = true ∧ rtype_from_file_extension m = .mft) := by
  constructor
  · intro hcr
    unfold sbgp_sia
    rw [if_pos hcr]
  · intro r1 h
    unfold sbgp_sia at h
    by_cases hcr : critical = true
    · rw [if_pos hcr] at h
      exact Option.noConfusion h
    · rw [if_neg hcr] at h
      cases parsed with
      | none => exact Option.noConfusion h
      | some ads =>
        dsimp only at h
        cases hscan : sia_scan ads r with
        | none =>
          rw [hscan] at h
          exact Option.noConfusion h
        | some r2 =>
          rw [hscan] at h
          dsimp only at h
          cases hm : r2.mft with
          | none =>
            rw [hm] at h
            exact Option.noConfusion h
          | some m =>
          cases hrep : r2.repo with
          | none =>
            rw [hm, hrep] at h
            exact Option.noConfusion h
          | some rep =>
            rw [hm, hrep] at h
            dsimp only at h
            by_cases hpre : str_begins_with rep m = true
            · rw [if_neg (not_not_intro hpre)] at h
              by_cases hr : rtype_from_file_extension m ≠ .mft
              · rw [if_pos hr] at h
                exact Option.noConfusion h
              · rw [if_neg hr] at h
                have hq := Option.some.inj h
                exact ⟨m, rep, hq ▸ hm, hq ▸ hrep, hpre, not_not.mp hr⟩
            · rw [if_pos hpre] at h
              exact Option.noConfusion h

/-- The SIA access descriptions of the sample certificate: a caRepository
locator and an rpkiManifest locator under it. -/
def adsW : List AccessDesc := [⟨SiaOid.carepo, repoS⟩, ⟨SiaOid.manifest, mftS⟩]

/-- The record the SIA scan produces from the sample access descriptions. -/
def certW6 : Cert := { repo := some repoS, mft := some mftS }

/-- Witness for C6: the sample non-critical SIA extension passes the decoder,
so its locators satisfy the co-location and file-type checks. -/
theorem sbgp_sia_witness :
    ∃ m rep, certW6.mft = some m ∧ certW6.repo = some rep ∧
      str_begins_with rep m = true ∧ rtype_from_file_extension m = .mft :=
  (sbgp_sia_checks false (some adsW) {}).2 certW6 (by decide)

/-- The purpose tag decodes back to the purpose it encodes. -/
theorem purposeTag_roundtrip (q : CertPurpose) :
    purposeOfTag (purposeTag q) = some q := by
  cases q <;> rfl

/-- C3: restoring a flattened certificate record yields a record equal in
every field to the original, for every record satisfying the §4.3
guarantees (SKI present; manifest present unless the purpose is BGPsec
router), with the fields travelling in the fixed `cert_buffer` order. -/
theorem cert_buffer_read_roundtrip (p : Cert)
    (h1 : p.ski ≠ none)
    (h2 : p.mft ≠ none ∨ p.purpose = .bgpsec_router) :
    cert_read (cert_buffer p) = some p := by
  unfold cert_buffer cert_read
  dsimp only
  rw [purposeTag_roundtrip]
  dsimp only
  rw [if_neg (fun hh => hh rfl)]
  rw [if_neg (fun hh => hh rfl)]
  rw [if_neg (not_not_intro h2)]
  rw [if_neg h1]

/-- A sample record that passed §4.3: SKI and manifest present. -/
def certW3 : Cert :=
  { mft := some mftS, ski := some skiS, aki := some akiS,
    as := [⟨AsType.id, 5, {}⟩], ips := [⟨AFI.ipv4, IpType.addr, 0, 255⟩],
    purpose := .ca, talid := 2, expires := 77 }

/-- Witness for C3: the sample record round-trips through the serialization
layer unchanged. -/
theorem cert_buffer_read_roundtrip_witness :
    cert_read (cert_buffer certW3) = some certW3 :=
  cert_buffer_read_roundtrip certW3 (by decide) (by decide)

/-- C8: the router-key index merges on conflict: an insertion matching an
existing (AS, SKI, public key) keeps the index size (the existing entry is
kept, the new allocation discarded); the matched entry takes the new record's
expiry and talid exactly when the new expiry is strictly later; and two
insertions of the same key starting from an empty index leave exactly one
entry bearing the later of the two expiries. -/
theorem insert_brk_merge :
    (∀ tree b, (∃ e ∈ tree, brkKeyEq e b) →
      (insert_brk tree b).length = tree.length) ∧
    (∀ pre e post b, (∀ x ∈ pre, ¬ brkKeyEq x b) → brkKeyEq e b →
      insert_brk (pre ++ e :: post) b =
        pre ++ (if e.expires < b.expires then
          { e with expires := b.expires, talid := b.talid } else e) :: post) ∧
    (∀ b1 b2, brkKeyEq b1 b2 →
      ∃ u, insert_brk (insert_brk [] b1) b2 = [u] ∧
        u.expires = max b1.expires b2.expires ∧
        u.asid = b1.asid ∧ u.ski = b1.ski ∧ u.pubkey = b1.pubkey) := by
  refine ⟨?_, ?_, ?_⟩
  · intro tree b hex
    induction tree with
    | nil => simp at hex
    | cons x xs ih =>
      by_cases hk : brkKeyEq x b
      · simp only [insert_brk]
        rw [if_pos hk]
        simp
      · simp only [insert_brk]
        rw [if_neg hk]
        obtain ⟨e, he, hke⟩ := hex
        rcases List.mem_cons.mp he with rfl | he
        · exact absurd hke hk
        · simp [ih ⟨e, he, hke⟩]
  · intro pre
    induction pre with
    | nil =>
      intro e post b _ hke
      simp only [List.nil_append, insert_brk]
      rw [if_pos hke]
    | cons x xs ih =>
      intro e post b hpre hke
      simp only [List.cons_append, insert_brk]
      rw [if_neg (hpre x (List.mem_cons_self x xs))]
      exact congrArg (x :: ·)
        (ih e post b (fun y hy => hpre y (List.mem_cons_of_mem x hy)) hke)
  · intro b1 b2 hk
    by_cases hlt : b1.expires < b2.expires
    · refine ⟨{ b1 with expires := b2.expires, talid := b2.talid }, ?_, ?_,
        rfl, rfl, rfl⟩
      · simp only [insert_brk]
        rw [if_pos hk, if_pos hlt]
      · simp only
        rw [Nat.max_eq_right (Nat.le_of_lt hlt)]
    · refine ⟨b1, ?_, ?_, rfl, rfl, rfl⟩
      · simp only [insert_brk]
        rw [if_pos hk, if_neg hlt]
      · rw [Nat.max_eq_left (Nat.le_of_not_lt hlt)]

/-- A first sample router key. -/
def brkW1 : Brk :=
  { asid := 1, ski := some skiS, pubkey := some pkS, expires := 5, talid := 0 }

/-- A second sample router key with the same (AS, SKI, public key) and a
later expiry. -/
def brkW2 : Brk :=
  { asid := 1, ski := some skiS, pubkey := some pkS, expires := 9, talid := 1 }

/-- Witness for C8: inserting the two sample records for the same key yields
exactly one entry bearing the later expiry. -/
theorem insert_brk_merge_witness :
    ∃ u, insert_brk (insert_brk [] brkW1) brkW2 = [u] ∧
      u.expires = max brkW1.expires brkW2.expires ∧
      u.asid = brkW1.asid ∧ u.ski = brkW1.ski ∧ u.pubkey = brkW1.pubkey :=
  insert_brk_merge.2.2 brkW1 brkW2 (by decide)

/-- Inserting a router key whose AS identifier matches no entry appends it. -/
theorem insert_brk_fresh (t : List Brk) (b : Brk)
    (h : ∀ x ∈ t, x.asid ≠ b.asid) : insert_brk t b = t ++ [b] := by
  induction t with
  | nil => rfl
  | cons e rest ih =>
    have hne : ¬ brkKeyEq e b :=
      fun hkk => h e (List.mem_cons_self e rest) hkk.1
    simp only [insert_brk]
    rw [if_neg hne, ih (fun x hx => h x (List.mem_cons_of_mem e hx))]
    simp

/-- Folding router-key insertions over an ascending run of AS identifiers,
starting from an index whose AS identifiers all lie below the run, appends
one entry per identifier. -/
theorem insert_brk_range_fold (cert : Cert) :
    ∀ n mn t, (∀ x ∈ t, x.asid < mn) →
      (List.range' mn n).foldl (fun t a => insert_brk t (mkBrk cert a)) t =
        t ++ (List.range' mn n).map (mkBrk cert) := by
  intro n
  induction n with
  | zero =>
    intro mn t _
    simp [List.range']
  | succ k ih =>
    intro mn t h
    simp only [List.range'_succ, List.foldl_cons, List.map_cons]
    rw [insert_brk_fresh t (mkBrk cert mn) (fun x hx => Nat.ne_of_lt (h x hx))]
    rw [ih (mn + 1) (t ++ [mkBrk cert mn]) ?_]
    · simp
    · intro x hx
      rcases List.mem_append.mp hx with hx | hx
      · exact Nat.lt_succ_of_lt (h x hx)
      · have hxx : x = mkBrk cert mn := by simpa using hx
        rw [hxx]
        exact Nat.lt_succ_self mn

/-- Folding a function over a list equals folding it over the filtered list
when the function ignores the filtered-out elements. -/
theorem foldl_filter_skip {α β : Type} (f : β → α → β) (p : α → Bool)
    (hf : ∀ t a, p a = false → f t a = t) :
    ∀ (l : List α) (t : β), l.foldl f t = (l.filter p).foldl f t := by
  intro l
  induction l with
  | nil => intro t; rfl
  | cons x xs ih =>
    intro t
    by_cases hx : p x = true
    · rw [List.foldl_cons, List.filter_cons_of_pos hx, List.foldl_cons, ih]
    · have hx0 : p x = false := Bool.eq_false_iff.mpr hx
      rw [List.foldl_cons, hf t x hx0, List.filter_cons_of_neg
        (Bool.not_eq_true (p x) ▸ hx), ih]

/-- C10: only singleton and range AS entries produce router-key insertions —
the fold equals the fold over the list with inherit entries filtered out, a
single-inherit AS list inserts nothing (and the operation still returns), and
a single range entry inserts one router key per AS identifier between its
bounds, both included. -/
theorem cert_insert_brks_expansion :
    (∀ tree cert, cert_insert_brks tree cert =
      cert_insert_brks tree
        { cert with
            as := cert.as.filter (fun a => decide (a.type ≠ AsType.inherit)) }) ∧
    (∀ tree cert e, cert.as = [e] → e.type = .inherit →
      cert_insert_brks tree cert = tree) ∧
    (∀ cert e mn mx, cert.as = [e] → e.type = .range → e.range = ⟨mn, mx⟩ →
      cert_insert_brks [] cert =
        (List.range' mn (mx + 1 - mn)).map (mkBrk cert)) := by
  refine ⟨?_, ?_, ?_⟩
  · intro tree cert
    unfold cert_insert_brks
    dsimp only
    refine foldl_filter_skip _ _ ?_ cert.as tree
    intro t a ha
    have hai : a.type = AsType.inherit := by
      by_contra hno
      simp [hno] at ha
    rw [hai]
  · intro tree cert e has htype
    unfold cert_insert_brks
    rw [has]
    simp [htype]
  · intro cert e mn mx has htype hr
    unfold cert_insert_brks
    rw [has]
    simp only [List.foldl_cons, List.foldl_nil, htype, hr]
    exact insert_brk_range_fold cert (mx + 1 - mn) mn [] (by simp)

/-- A sample router certificate whose AS list is a single inherit marker. -/
def certWInh : Cert :=
  { ski := some skiS, pubkey := some pkS, as := [⟨AsType.inherit, 0, {}⟩] }

/-- A sample router certificate whose AS list is the single range [10, 12]. -/
def certWRng : Cert :=
  { ski := some skiS, pubkey := some pkS, as := [⟨AsType.range, 0, ⟨10, 12⟩⟩] }

/-- Witness for C10: the inherit-only sample certificate inserts zero router
keys, and the sample range certificate inserts one entry per AS identifier
from 10 to 12. -/
theorem cert_insert_brks_expansion_witness :
    cert_insert_brks [] certWInh = [] ∧
    cert_insert_brks [] certWRng =
      [mkBrk certWRng 10, mkBrk certWRng 11, mkBrk certWRng 12] := by
  constructor
  · exact cert_insert_brks_expansion.2.1 [] certWInh ⟨AsType.inherit, 0, {}⟩
      rfl rfl
  · rw [cert_insert_brks_expansion.2.2 certWRng ⟨AsType.range, 0, ⟨10, 12⟩⟩
      10 12 rfl rfl rfl]
    rfl

end RPKI
